import Mathlib

/-!
Verification of the Discourse-to-GitHub markup rewriting engine of
iris-garden/test-process.

The repository contains two successive iterations of the same streaming
HTML-rewriting engine, `DiscourseHTMLParser` in `discourse_download.py`
(embedded below with the `dl` names) and in `discourse_migration.py`
(embedded with the `mg` names).  Both are subclasses of Python's
`html.parser.HTMLParser`, which turns the raw markup string into a
sequence of lexical events (start tag, end tag, self-closing tag, text,
comment, declaration, character or entity reference, processing
instruction) and invokes one handler per event.  The embedding works at
that event level: `HtmlEvent` is the event vocabulary, a parser state is
a structure holding exactly the mutable fields of the Python object, and
each handler is a Lean function translated line by line from its Python
source.

Python particulars carried over faithfully:
* attribute lists are `List (String × Option String)` as delivered by
  `html.parser` (an attribute written without a value has value `none`);
* `dict(attrs)` keeps the last occurrence of a duplicated key, and
  `.get(key, default)` returns the stored value (which may be `none`,
  Python's `None`) or the default;
* interpolating `None` into an f-string prints the text `None`
  (`pyStr`);
* string operations applied to a `None` value (`x.startswith`,
  `"s" in x`) raise in Python; the start-tag handlers therefore return
  `Option State`, with `none` standing for a raised exception, and
  `dlFeed`/`mgFeed` abort the run there.
-/

/-- Python truthiness-preserving rendering used by f-strings:
interpolating the value `None` prints the literal text `None`. -/
def pyStr : Option String → String
  | none => "None"
  | some s => s

/-- listLeads n l is true when the character list n is an initial
segment of l (Python s.startswith). -/
def listLeads : List Char → List Char → Bool
  | [], _ => true
  | _ :: _, [] => false
  | a :: as, b :: bs => a == b && listLeads as bs

/-- listHas n l is true when the character list n occurs contiguously
inside l (Python "n in l" for strings). -/
def listHas (needle : List Char) : List Char → Bool
  | [] => needle.isEmpty
  | c :: rest => listLeads needle (c :: rest) || listHas needle rest

/-- strLeads p s is Python s.startswith(p). -/
def strLeads (p s : String) : Bool :=
  listLeads p.toList s.toList

/-- strIn sub s is Python "sub in s" (contiguous substring test). -/
def strIn (sub s : String) : Bool :=
  listHas sub.toList s.toList

/-- takeUntil sep l is the part of l before the first occurrence of the
character sep, or all of l when sep does not occur: Python
l.split(sep)[0] for a one-character separator. -/
def takeUntil (sep : Char) : List Char → List Char
  | [] => []
  | c :: rest => if c == sep then [] else c :: takeUntil sep rest

/-- dropThrough sep l is the part of l after the first occurrence of the
character sep, or [] when sep does not occur: Python l.partition(sep)[2]
for a one-character separator. -/
def dropThrough (sep : Char) : List Char → List Char
  | [] => []
  | c :: rest => if c == sep then rest else dropThrough sep rest

/-- stripLead s p is Python s.removeprefix(p): s without its leading p
when s starts with p, otherwise s unchanged. -/
def stripLead (s p : String) : String :=
  if listLeads p.toList s.toList then String.mk (s.toList.drop p.toList.length)
  else s

/-- dictFind attrs key looks key up in Python dict(attrs): the last
occurrence of a duplicated key wins; the found value may itself be
none (an attribute written without a value). -/
def dictFind (attrs : List (String × Option String)) (key : String) :
    Option (Option String) :=
  match attrs with
  | [] => none
  | (k, v) :: rest =>
    match dictFind rest key with
    | some r => some r
    | none => if k == key then some v else none

/-- dictGet attrs key dflt is Python dict(attrs).get(key, dflt). -/
def dictGet (attrs : List (String × Option String)) (key : String)
    (dflt : Option String) : Option String :=
  (dictFind attrs key).getD dflt

/-- The lexical events produced by Python's html.parser and dispatched
to the handlers of DiscourseHTMLParser. -/
inductive HtmlEvent where
  | startTag (tag : String) (attrs : List (String × Option String))
  | startEndTag (tag : String) (attrs : List (String × Option String))
  | endTag (tag : String)
  | text (data : String)
  | comment (data : String)
  | decl (data : String)
  | charref (name : String)
  | entityref (name : String)
  | pi (data : String)
deriving DecidableEq, Repr

/-- Constant POST_LINK_ID shared by both source files: the placeholder
namespace embedded in rewritten cross-topic anchors. -/
def POST_LINK_ID : String := "f4706281-cc60-4ff0-a0b6-b803683cc24b"

/-- Mutable state of DiscourseHTMLParser in discourse_download.py,
field for field. -/
structure DlState where
  output_html : String
  post_links : List String
  relative_link : Bool
  aside : Bool
  aside_src : Option String
  aside_src_written : Bool
  aside_header : Bool
  aside_header_link : Bool
  aside_header_link_written : Bool
  code_block_pre : Bool
  code_block_code : Bool
  mention : Bool
deriving DecidableEq, Repr

/-- Initial DiscourseHTMLParser state (discourse_download.py __init__). -/
def dlInit : DlState :=
  { output_html := ""
    post_links := []
    relative_link := false
    aside := false
    aside_src := none
    aside_src_written := false
    aside_header := false
    aside_header_link := false
    aside_header_link_written := false
    code_block_pre := false
    code_block_code := false
    mention := false }

/-- _write_starttag of discourse_download.py: re-emit a tag with its
attributes in original order, formatting each value through an f-string
(so a valueless attribute prints as key="None"). -/
def writeStarttag (attrs : List (String × Option String))
    (tag suffix : String) : String :=
  let attrStrPre := if attrs.length > 0 then " " else ""
  let attrStr :=
    String.intercalate " " (attrs.map (fun kv => kv.1 ++ "=\"" ++ pyStr kv.2 ++ "\""))
  "<" ++ tag ++ attrStrPre ++ attrStr ++ suffix ++ ">"

/-- The condition of the second branch of _starttag_handler in
discourse_download.py: self.aside and self.aside_src is None and
(tag == "header" or (tag == "div" and "title" in
attr_dict.get("class", ""))), evaluated with Python short-circuiting;
the result none models the TypeError raised when the in-test hits a
class attribute whose value is None. -/
def asideHeaderCond (s : DlState) (tag : String)
    (attrs : List (String × Option String)) : Option Bool :=
  if s.aside && s.aside_src.isNone then
    if tag == "header" then some true
    else if tag == "div" then
      match dictGet attrs "class" (some "") with
      | none => none
      | some cls => some (strIn "title" cls)
    else some false
  else some false

/-- _starttag_handler of discourse_download.py (handle_starttag with
suffix "", handle_startendtag with suffix " /"), translated branch by
branch; the result none models a raised exception. -/
def dlStart (suffix : String) (s : DlState) (tag : String)
    (attrs : List (String × Option String)) : Option DlState :=
  if (!s.aside || s.aside_header) && tag == "a" then
    let s1 :=
      if s.aside_header && !s.aside_header_link_written then
        { s with aside_header_link := true }
      else s
    match dictGet attrs "class" (some "") with
    | none => none
    | some cls =>
      if strIn "mention" cls then some { s1 with mention := true }
      else
        match dictGet attrs "href" (some "") with
        | none => none
        | some link =>
          if strLeads "/" link then some { s1 with relative_link := true }
          else if strIn "https://discuss.hail.is/t/" link then
            let slug :=
              String.mk (takeUntil '/' (stripLead link "https://discuss.hail.is/t/").toList)
            some { s1 with
                   post_links := s1.post_links.insert slug
                   output_html :=
                     s1.output_html ++ "<a href=\"" ++ POST_LINK_ID ++ "/" ++ slug ++ "\">" }
          else
            some { s1 with output_html := s1.output_html ++ writeStarttag attrs tag suffix }
  else
    match asideHeaderCond s tag attrs with
    | none => none
    | some true =>
      some { s with aside_header := true, output_html := s.output_html ++ "\n" }
    | some false =>
      if s.aside_header && tag == "blockquote" then
        some { s with
               aside := false
               aside_header := false
               aside_header_link_written := false
               output_html := s.output_html ++ writeStarttag attrs tag suffix }
      else if s.aside_header && tag == "article" then
        some { s with aside_header := false, aside_header_link_written := false }
      else if !s.aside then
        if tag == "aside" then
          let s1 := { s with aside := true }
          match dictGet attrs "data-onebox-src" none with
          | some src =>
            some { s1 with
                   aside_src := some src
                   output_html := s1.output_html ++ "\n<a href=\"" ++ src ++ "\">" }
          | none => some s1
        else if tag == "pre" then some { s with code_block_pre := true }
        else if s.code_block_pre then
          if tag == "code" then
            some { s with
                   output_html := s.output_html ++ "\n\n```python\n"
                   code_block_code := true }
          else some s
        else
          some { s with output_html := s.output_html ++ writeStarttag attrs tag suffix }
      else some s

/-- handle_data of discourse_download.py. -/
def dlData (s : DlState) (data : String) : DlState :=
  if s.mention then
    { s with output_html := s.output_html ++ String.mk (dropThrough '@' data.toList) }
  else
    match s.aside_src with
    | some src =>
      if !s.aside_src_written then
        { s with output_html := s.output_html ++ src, aside_src_written := true }
      else if !s.aside || s.aside_header_link then
        { s with output_html := s.output_html ++ data }
      else s
    | none =>
      if !s.aside || s.aside_header_link then
        { s with output_html := s.output_html ++ data }
      else s

/-- handle_endtag of discourse_download.py. -/
def dlEnd (s : DlState) (tag : String) : DlState :=
  if (!s.aside || s.aside_header) && tag == "a" then
    if s.mention then { s with mention := false }
    else if s.relative_link then { s with relative_link := false }
    else
      let s1 :=
        if s.aside_header_link then
          { s with aside_header_link := false, aside_header_link_written := true }
        else s
      { s1 with output_html := s1.output_html ++ "</a>" }
  else if tag == "aside" then
    let s1 := { s with aside := false }
    match s1.aside_src with
    | some _ =>
      { s1 with
        output_html := s1.output_html ++ "</a>\n"
        aside_src := none
        aside_src_written := false
        aside_header_link_written := true }
    | none => s1
  else if !s.aside then
    if tag == "pre" then { s with code_block_pre := false }
    else if s.code_block_pre then
      if tag == "code" then
        { s with output_html := s.output_html ++ "\n```\n\n", code_block_code := false }
      else s
    else { s with output_html := s.output_html ++ "</" ++ tag ++ ">" }
  else s

/-- Event dispatch of discourse_download.py's DiscourseHTMLParser:
handle_starttag, handle_startendtag, handle_endtag, handle_data,
handle_comment, handle_decl and unknown_decl, handle_charref,
handle_entityref, handle_pi. -/
def dlStep (s : DlState) : HtmlEvent → Option DlState
  | .startTag t a => dlStart "" s t a
  | .startEndTag t a => dlStart " /" s t a
  | .endTag t => some (dlEnd s t)
  | .text d => some (dlData s d)
  | .comment d => some { s with output_html := s.output_html ++ "<!--" ++ d ++ "-->" }
  | .decl d => some { s with output_html := s.output_html ++ "<!" ++ d ++ ">" }
  | .charref n => some { s with output_html := s.output_html ++ "&" ++ n ++ ";" }
  | .entityref n => some { s with output_html := s.output_html ++ "&" ++ n ++ ";" }
  | .pi d => some { s with output_html := s.output_html ++ "<?" ++ d ++ ">" }

/-- Run the discourse_download.py engine over a sequence of events
(HTMLParser.feed), aborting on a raised exception. -/
def dlFeed : DlState → List HtmlEvent → Option DlState
  | s, [] => some s
  | s, e :: es =>
    match dlStep s e with
    | some s1 => dlFeed s1 es
    | none => none

/-- Mutable state of DiscourseHTMLParser in discourse_migration.py,
field for field. -/
structure MgState where
  output_html : String
  post_links : List String
  relative_link : Bool
  link_preview : Bool
  link_preview_url : Option String
  code_block_pre : Bool
  code_block_code : Bool
  mention : Bool
deriving DecidableEq, Repr

/-- Initial DiscourseHTMLParser state (discourse_migration.py __init__). -/
def mgInit : MgState :=
  { output_html := ""
    post_links := []
    relative_link := false
    link_preview := false
    link_preview_url := none
    code_block_pre := false
    code_block_code := false
    mention := false }

/-- The condition of the aside branch of _starttag_handler in
discourse_migration.py: tag == "aside" and "onebox" in
attr_dict.get("class", "") and "data_onebox_source" in attr_dict, with
Python short-circuiting; none models the TypeError raised when the
in-test hits a class attribute whose value is None. -/
def mgAsideCond (tag : String) (attrs : List (String × Option String)) :
    Option Bool :=
  if tag == "aside" then
    match dictGet attrs "class" (some "") with
    | none => none
    | some cls => some (strIn "onebox" cls && (dictFind attrs "data_onebox_source").isSome)
  else some false

/-- _starttag_handler of discourse_migration.py; note that its tag ==
"a" branch has no default case: an anchor matching none of the
mention, relative-link or cross-topic tests produces no output at all. -/
def mgStart (suffix : String) (s : MgState) (tag : String)
    (attrs : List (String × Option String)) : Option MgState :=
  if tag == "a" then
    match dictGet attrs "class" (some "") with
    | none => none
    | some cls =>
      if strIn "mention" cls then some { s with mention := true }
      else
        match dictGet attrs "href" (some "") with
        | none => none
        | some link =>
          if strLeads "/" link then some { s with relative_link := true }
          else if strIn "https://discuss.hail.is/t/" link then
            let slug :=
              String.mk (takeUntil '/' (stripLead link "https://discuss.hail.is/t/").toList)
            some { s with
                   post_links := s.post_links.insert slug
                   output_html :=
                     s.output_html ++ "<a href=\"" ++ POST_LINK_ID ++ "/" ++ slug ++ "\">" }
          else some s
  else
    match mgAsideCond tag attrs with
    | none => none
    | some true =>
      let url := (dictFind attrs "data_onebox_source").getD none
      some { s with
             link_preview_url := url
             output_html := s.output_html ++ "\n<a href=\"" ++ pyStr url ++ "\">"
             link_preview := true }
    | some false =>
      if tag == "pre" then some { s with code_block_pre := true }
      else if s.code_block_pre then
        if tag == "code" then
          some { s with
                 output_html := s.output_html ++ "\n\n```python\n"
                 code_block_code := true }
        else some s
      else
        some { s with output_html := s.output_html ++ writeStarttag attrs tag suffix }

/-- handle_data of discourse_migration.py; note that while link_preview
is set, every text event re-emits the captured source URL. -/
def mgData (s : MgState) (data : String) : MgState :=
  if s.link_preview then
    { s with output_html := s.output_html ++ pyStr s.link_preview_url }
  else if s.mention then
    { s with output_html := s.output_html ++ String.mk (dropThrough '@' data.toList) }
  else { s with output_html := s.output_html ++ data }

/-- handle_endtag of discourse_migration.py; note that its tag == "a"
branch has no default case: an end tag for an anchor that is neither a
mention nor a relative link is swallowed. -/
def mgEnd (s : MgState) (tag : String) : MgState :=
  if tag == "a" then
    if s.mention then { s with mention := false }
    else if s.relative_link then { s with relative_link := false }
    else s
  else if tag == "aside" && s.link_preview then
    { s with
      output_html := s.output_html ++ "</a>\n"
      link_preview := false
      link_preview_url := none }
  else if tag == "pre" then { s with code_block_pre := false }
  else if s.code_block_pre then
    if tag == "code" then
      { s with output_html := s.output_html ++ "\n```\n\n", code_block_code := false }
    else s
  else { s with output_html := s.output_html ++ "</" ++ tag ++ ">" }

/-- Event dispatch of discourse_migration.py's DiscourseHTMLParser. -/
def mgStep (s : MgState) : HtmlEvent → Option MgState
  | .startTag t a => mgStart "" s t a
  | .startEndTag t a => mgStart " /" s t a
  | .endTag t => some (mgEnd s t)
  | .text d => some (mgData s d)
  | .comment d => some { s with output_html := s.output_html ++ "<!--" ++ d ++ "-->" }
  | .decl d => some { s with output_html := s.output_html ++ "<!" ++ d ++ ">" }
  | .charref n => some { s with output_html := s.output_html ++ "&" ++ n ++ ";" }
  | .entityref n => some { s with output_html := s.output_html ++ "&" ++ n ++ ";" }
  | .pi d => some { s with output_html := s.output_html ++ "<?" ++ d ++ ">" }

/-- Run the discourse_migration.py engine over a sequence of events. -/
def mgFeed : MgState → List HtmlEvent → Option MgState
  | s, [] => some s
  | s, e :: es =>
    match mgStep s e with
    | some s1 => mgFeed s1 es
    | none => none

/-- concatAll chunks is the concatenation of a list of text chunks: the
original input string of a document that tokenizes to text events only. -/
def concatAll : List String → String
  | [] => ""
  | c :: cs => c ++ concatAll cs

/-- isAnchorStart e is true exactly when the event e is an anchor start
tag (an opening or self-closing tag named a), the only kind of event
whose handlers ever set the mention or relativeLink flag. -/
def isAnchorStart : HtmlEvent → Bool
  | .startTag tag _ => tag == "a"
  | .startEndTag tag _ => tag == "a"
  | _ => false

/-- sepConcat s l prepends the separator s to every element of l and
concatenates: the tail shape of Python sep.join (String.intercalate). -/
def sepConcat (s : String) : List String → String
  | [] => ""
  | a :: as => s ++ a ++ sepConcat s as

/-- A character that does not occur in a list leaves nothing after it:
Python data.partition(sep) returns an empty third component when sep is
absent. -/
theorem dropThrough_eq_nil (c : Char) (l : List Char)
    (h : listHas [c] l = false) : dropThrough c l = [] := by
  induction l with
  | nil => rfl
  | cons x xs ih =>
    simp only [listHas, listLeads, Bool.and_true, Bool.or_eq_false_iff] at h
    obtain ⟨h1, h2⟩ := h
    have hx : (x == c) = false := by
      rw [beq_eq_false_iff_ne] at h1 ⊢
      exact fun e => h1 e.symm
    simp [dropThrough, hx, ih h2]

/-- Feeding only text events to the discourse_download.py engine, from a
state with no active mention, preview or aside context, appends their
concatenation to the output and changes nothing else. -/
theorem dlFeed_texts (chunks : List String) (s : DlState)
    (hm : s.mention = false) (hsrc : s.aside_src = none) (ha : s.aside = false) :
    dlFeed s (chunks.map HtmlEvent.text)
      = some { s with output_html := s.output_html ++ concatAll chunks } := by
  induction chunks generalizing s hm hsrc ha with
  | nil => simp [dlFeed, concatAll]
  | cons c cs ih =>
    have hstep : dlData s c = { s with output_html := s.output_html ++ c } := by
      simp [dlData, hm, hsrc, ha]
    simp only [List.map_cons, dlFeed, dlStep, hstep]
    rw [ih { s with output_html := s.output_html ++ c } hm hsrc ha]
    simp [concatAll, String.append_assoc]

/-- Feeding only text events to the discourse_migration.py engine, from
a state with no active mention or preview context, appends their
concatenation to the output and changes nothing else. -/
theorem mgFeed_texts (chunks : List String) (s : MgState)
    (hm : s.mention = false) (hp : s.link_preview = false) :
    mgFeed s (chunks.map HtmlEvent.text)
      = some { s with output_html := s.output_html ++ concatAll chunks } := by
  induction chunks generalizing s hm hp with
  | nil => simp [mgFeed, concatAll]
  | cons c cs ih =>
    have hstep : mgData s c = { s with output_html := s.output_html ++ c } := by
      simp [mgData, hm, hp]
    simp only [List.map_cons, mgFeed, mgStep, hstep]
    rw [ih { s with output_html := s.output_html ++ c } hm hp]
    simp [concatAll, String.append_assoc]

/-- Claim C9: an input containing no tag markup tokenizes to a sequence
of text events whose concatenation is the input; both engines reproduce
it byte for byte (the output of a fresh run over those events is exactly
the concatenation of the chunks). -/
theorem c9_plain_text (chunks : List String) :
    dlFeed dlInit (chunks.map HtmlEvent.text)
        = some { dlInit with output_html := concatAll chunks }
    ∧ mgFeed mgInit (chunks.map HtmlEvent.text)
        = some { mgInit with output_html := concatAll chunks } := by
  refine ⟨?_, ?_⟩
  · simpa using dlFeed_texts chunks dlInit rfl rfl rfl
  · simpa using mgFeed_texts chunks mgInit rfl rfl

/-- Claim C3: a mention anchor (class contains the substring mention)
has its opening tag swallowed and only sets the mention flag; while the
flag is set every text event keeps only the substring after the first
commercial-at character, and text with no such character contributes
nothing; the matching end tag clears the flag and is itself swallowed;
on the spec's example the whole anchor collapses to the bare username
with no anchor markup in the output. -/
theorem c3_mention_anchors :
    (∀ (s : DlState) (attrs : List (String × Option String)) (cls : String),
        s.aside = false → s.aside_header = false →
        dictGet attrs "class" (some "") = some cls → strIn "mention" cls = true →
        dlStart "" s "a" attrs = some { s with mention := true })
    ∧ (∀ (s : DlState) (d : String), s.mention = true →
        dlData s d
          = { s with output_html := s.output_html ++ String.mk (dropThrough '@' d.toList) })
    ∧ (∀ (s : DlState) (d : String), s.mention = true → strIn "@" d = false →
        (dlData s d).output_html = s.output_html)
    ∧ (∀ (s : DlState), s.mention = true → s.aside = false → s.aside_header = false →
        dlEnd s "a" = { s with mention := false })
    ∧ ((dlFeed dlInit
          [HtmlEvent.startTag "a" [("class", some "mention"), ("href", some "/u/foo")],
           HtmlEvent.text "@foo", HtmlEvent.endTag "a"]).map DlState.output_html
        = some "foo"
       ∧ strIn "<a" "foo" = false ∧ strIn "</a" "foo" = false) := by
  refine ⟨?_, ?_, ?_, ?_, rfl, rfl, rfl⟩
  · intro s attrs cls ha hh hcls hmen
    simp [dlStart, ha, hh, hcls, hmen]
  · intro s d hm
    simp [dlData, hm]
  · intro s d hm hd
    have hz : dropThrough '@' d.data = [] :=
      dropThrough_eq_nil '@' d.data (by simpa [strIn, String.toList] using hd)
    have h0 : String.mk ([] : List Char) = "" := rfl
    simp [dlData, hm, hz, h0]
  · intro s hm ha hh
    simp [dlEnd, ha, hh, hm]

/-- Closed instance discharging the hypotheses of c3_mention_anchors at
a concrete input: the opening mention tag from the initial state, and a
no-commercial-at text event while the flag is set. -/
theorem c3_mention_anchors_witness :
    (dlInit.aside = false ∧ dlInit.aside_header = false
      ∧ dictGet [("class", some "mention")] "class" (some "") = some "mention"
      ∧ strIn "mention" "mention" = true
      ∧ dlStart "" dlInit "a" [("class", some "mention")]
          = some { dlInit with mention := true })
    ∧ ({ dlInit with mention := true }.mention = true ∧ strIn "@" "hello" = false
      ∧ (dlData { dlInit with mention := true } "hello").output_html
          = { dlInit with mention := true }.output_html) :=
  ⟨⟨rfl, rfl, rfl, rfl,
      c3_mention_anchors.1 dlInit [("class", some "mention")] "mention" rfl rfl rfl rfl⟩,
   ⟨rfl, rfl,
      c3_mention_anchors.2.2.1 { dlInit with mention := true } "hello" rfl rfl⟩⟩

/-- Claim C1 counterexample: the claim promises that whenever the href
merely CONTAINS the topic-path prefix, the slug is the path segment
immediately following that prefix.  The code instead runs removeprefix,
which strips the prefix only when the href STARTS with it, and then
takes everything before the first slash of the remainder.  For the href
"see https://discuss.hail.is/t/my-topic/45" (contains, but does not
start with, the prefix) the claimed slug is "my-topic", yet the engine
registers "see https:" and never registers "my-topic". -/
theorem c1_counterexample :
    (dlFeed dlInit [HtmlEvent.startTag "a"
        [("href", some "see https://discuss.hail.is/t/my-topic/45")]]).map
      DlState.post_links = some ["see https:"]
    ∧ (dlFeed dlInit [HtmlEvent.startTag "a"
        [("href", some "see https://discuss.hail.is/t/my-topic/45")]]).map
      (fun s => s.post_links.contains "my-topic") = some false := by
  exact ⟨rfl, rfl⟩

/-- Claim C1, amended: in the discourse_download.py engine, outside
any aside context, an anchor start tag whose class has no mention
marker and whose href does not start with a slash but contains
"https://discuss.hail.is/t/" computes a slug by stripping that text
only when it is a leading segment of the href (leaving the href
unchanged otherwise) and taking everything before the next slash; the
slug is added to post_links and the rewritten placeholder anchor is
emitted; a matching end tag for a plain anchor is re-emitted as the
literal anchor end tag; on the spec's example
(href https://discuss.hail.is/t/my-topic/45, inner text See thread) the
output is exactly the placeholder anchor around the unchanged inner
text and "my-topic" is registered.  (In the discourse_migration.py
engine the matching end tag is swallowed instead of being re-emitted.) -/
theorem c1_cross_topic_links_amended :
    (∀ (s : DlState) (attrs : List (String × Option String)) (cls href : String),
        s.aside = false → s.aside_header = false →
        dictGet attrs "class" (some "") = some cls → strIn "mention" cls = false →
        dictGet attrs "href" (some "") = some href →
        strLeads "/" href = false →
        strIn "https://discuss.hail.is/t/" href = true →
        dlStart "" s "a" attrs
          = some { s with
              post_links := s.post_links.insert
                (String.mk (takeUntil '/' (stripLead href "https://discuss.hail.is/t/").toList))
              output_html := s.output_html ++ "<a href=\"" ++ POST_LINK_ID ++ "/"
                ++ String.mk (takeUntil '/' (stripLead href "https://discuss.hail.is/t/").toList)
                ++ "\">" })
    ∧ (∀ (s : DlState), s.aside = false → s.mention = false → s.relative_link = false →
        s.aside_header_link = false →
        dlEnd s "a" = { s with output_html := s.output_html ++ "</a>" })
    ∧ ((dlFeed dlInit [HtmlEvent.startTag "a" [("href", some "https://discuss.hail.is/t/my-topic/45")],
          HtmlEvent.text "See thread", HtmlEvent.endTag "a"]).map DlState.output_html
        = some "<a href=\"f4706281-cc60-4ff0-a0b6-b803683cc24b/my-topic\">See thread</a>"
       ∧ (dlFeed dlInit [HtmlEvent.startTag "a" [("href", some "https://discuss.hail.is/t/my-topic/45")],
          HtmlEvent.text "See thread", HtmlEvent.endTag "a"]).map
            (fun s => s.post_links.contains "my-topic") = some true) := by
  refine ⟨?_, ?_, rfl, rfl⟩
  · intro s attrs cls href ha hh hcls hmen hhref hlead hin
    simp [dlStart, ha, hh, hcls, hmen, hhref, hlead, hin]
  · intro s ha hm hr hl
    simp [dlEnd, ha, hm, hr, hl]

/-- Closed instance discharging the hypotheses of
c1_cross_topic_links_amended at a concrete input: the spec's example
anchor processed from the initial state, and its end tag. -/
theorem c1_cross_topic_links_witness :
    (dlInit.aside = false ∧ dlInit.aside_header = false
      ∧ dictGet [("href", some "https://discuss.hail.is/t/my-topic/45")] "class" (some "")
          = some ""
      ∧ strIn "mention" "" = false
      ∧ dictGet [("href", some "https://discuss.hail.is/t/my-topic/45")] "href" (some "")
          = some "https://discuss.hail.is/t/my-topic/45"
      ∧ strLeads "/" "https://discuss.hail.is/t/my-topic/45" = false
      ∧ strIn "https://discuss.hail.is/t/" "https://discuss.hail.is/t/my-topic/45" = true
      ∧ dlStart "" dlInit "a" [("href", some "https://discuss.hail.is/t/my-topic/45")]
          = some { dlInit with
              post_links := ["my-topic"]
              output_html := "<a href=\"f4706281-cc60-4ff0-a0b6-b803683cc24b/my-topic\">" })
    ∧ (dlInit.aside = false ∧ dlInit.mention = false ∧ dlInit.relative_link = false
      ∧ dlInit.aside_header_link = false
      ∧ dlEnd dlInit "a" = { dlInit with output_html := "</a>" }) :=
  ⟨⟨rfl, rfl, rfl, rfl, rfl, rfl, rfl,
      c1_cross_topic_links_amended.1 dlInit
        [("href", some "https://discuss.hail.is/t/my-topic/45")] ""
        "https://discuss.hail.is/t/my-topic/45" rfl rfl rfl rfl rfl rfl rfl⟩,
   ⟨rfl, rfl, rfl, rfl,
      c1_cross_topic_links_amended.2.1 dlInit rfl rfl rfl rfl⟩⟩

/-- Claim C2 counterexample: in the discourse_migration.py engine,
handle_data re-emits the captured source URL on EVERY text event inside
a link preview, so an aside with two text events writes the URL twice;
the claim says every text event after the first is dropped and the URL
appears exactly once. -/
theorem c2_counterexample :
    (mgFeed mgInit
        [HtmlEvent.startTag "aside" [("class", some "onebox"), ("data_onebox_source", some "URL")],
         HtmlEvent.text "a", HtmlEvent.text "b", HtmlEvent.endTag "aside"]).map
      MgState.output_html = some "\n<a href=\"URL\">URLURL</a>\n" := by
  exact rfl

/-- Claim C2, amended: in the discourse_download.py engine the claim
holds as stated: an aside start tag carrying a data-onebox-src
attribute emits a newline and the opening placeholder anchor on entry;
the first text event inside is replaced by the literal source URL, every
later text event inside is dropped, and the aside's end tag emits the
anchor end tag plus newline and clears the preview state (it also marks
the header-link-written flag); on the spec's example the inner text is
discarded and the URL written exactly once.  (In the
discourse_migration.py engine every text event inside the preview
re-emits the URL, so the URL appears once per text event instead.) -/
theorem c2_link_preview_amended :
    (∀ (s : DlState) (attrs : List (String × Option String)) (url : String),
        s.aside = false →
        dictGet attrs "data-onebox-src" none = some url →
        dlStart "" s "aside" attrs
          = some { s with
              aside := true
              aside_src := some url
              output_html := s.output_html ++ "\n<a href=\"" ++ url ++ "\">" })
    ∧ (∀ (s : DlState) (url d : String), s.mention = false → s.aside_src = some url →
        s.aside_src_written = false →
        dlData s d = { s with output_html := s.output_html ++ url, aside_src_written := true })
    ∧ (∀ (s : DlState) (url d : String), s.mention = false → s.aside_src = some url →
        s.aside_src_written = true → s.aside = true → s.aside_header_link = false →
        dlData s d = s)
    ∧ (∀ (s : DlState) (url : String), s.aside_src = some url →
        dlEnd s "aside"
          = { s with
              aside := false
              aside_src := none
              aside_src_written := false
              aside_header_link_written := true
              output_html := s.output_html ++ "</a>\n" })
    ∧ (dlFeed dlInit [HtmlEvent.startTag "aside" [("data-onebox-src", some "URL")],
        HtmlEvent.text "ignored text", HtmlEvent.endTag "aside"]).map DlState.output_html
      = some "\n<a href=\"URL\">URL</a>\n" := by
  refine ⟨?_, ?_, ?_, ?_, rfl⟩
  · intro s attrs url ha hurl
    simp [dlStart, asideHeaderCond, ha, hurl]
  · intro s url d hm hsrc hw
    simp [dlData, hm, hsrc, hw]
  · intro s url d hm hsrc hw ha hl
    simp [dlData, hm, hsrc, hw, ha, hl]
  · intro s url hsrc
    simp [dlEnd, hsrc]

/-- Closed instance discharging the hypotheses of
c2_link_preview_amended at concrete inputs: the spec's example aside
from the initial state, a first and a second text event inside it, and
the closing end tag. -/
theorem c2_link_preview_witness :
    (dlInit.aside = false
      ∧ dictGet [("data-onebox-src", some "URL")] "data-onebox-src" none = some "URL"
      ∧ dlStart "" dlInit "aside" [("data-onebox-src", some "URL")]
          = some { dlInit with
              aside := true
              aside_src := some "URL"
              output_html := "\n<a href=\"URL\">" })
    ∧ (dlData { dlInit with aside := true, aside_src := some "URL", aside_src_written := true }
         "later"
        = { dlInit with aside := true, aside_src := some "URL", aside_src_written := true }) :=
  ⟨⟨rfl, rfl,
      c2_link_preview_amended.1 dlInit [("data-onebox-src", some "URL")] "URL" rfl rfl⟩,
   c2_link_preview_amended.2.2.1
      { dlInit with aside := true, aside_src := some "URL", aside_src_written := true }
      "URL" "later" rfl rfl rfl rfl rfl⟩

/-- Claim C4 counterexample: in the discourse_migration.py engine an
anchor start tag with no href key (and no mention class) is NOT routed
into the default pass-through branch: its tag == "a" branch has no
default case, so the opening tag produces no output, and the end-tag
handler's tag == "a" branch likewise swallows the close; feeding an
attribute-less anchor around the text x yields just x, with no anchor
markup re-emitted as the claim requires. -/
theorem c4_counterexample :
    (mgFeed mgInit [HtmlEvent.startTag "a" [], HtmlEvent.text "x", HtmlEvent.endTag "a"]).map
        MgState.output_html = some "x"
    ∧ strIn "<a" "x" = false := by
  exact ⟨rfl, rfl⟩

/-- Claim C4, amended: in both engines a missing href is defaulted to
the empty string, which fails the relative-link and cross-topic tests;
in the discourse_download.py engine (outside aside context) such an
anchor lands in the default pass-through branch, its opening tag being
re-emitted with name and attributes in original order and its matching
end tag re-emitted as the anchor end tag; in the
discourse_migration.py engine the same anchor's opening and closing
tags are both swallowed, producing no output and leaving the state
unchanged. -/
theorem c4_missing_href_amended :
    (∀ (suffix : String) (s : DlState) (attrs : List (String × Option String)) (cls : String),
        s.aside = false → s.aside_header = false →
        dictFind attrs "href" = none →
        dictGet attrs "class" (some "") = some cls → strIn "mention" cls = false →
        dlStart suffix s "a" attrs
          = some { s with output_html := s.output_html ++ writeStarttag attrs "a" suffix })
    ∧ (∀ (s : DlState), s.aside = false → s.mention = false → s.relative_link = false →
        s.aside_header_link = false →
        dlEnd s "a" = { s with output_html := s.output_html ++ "</a>" })
    ∧ (∀ (suffix : String) (s : MgState) (attrs : List (String × Option String)) (cls : String),
        dictFind attrs "href" = none →
        dictGet attrs "class" (some "") = some cls → strIn "mention" cls = false →
        mgStart suffix s "a" attrs = some s)
    ∧ (∀ s : MgState, s.mention = false → s.relative_link = false → mgEnd s "a" = s) := by
  have e1 : strLeads "/" "" = false := rfl
  have e2 : strIn "https://discuss.hail.is/t/" "" = false := rfl
  refine ⟨?_, ?_, ?_, ?_⟩
  · intro suffix s attrs cls ha hh hfind hcls hmen
    have hhref : dictGet attrs "href" (some "") = some "" := by
      simp [dictGet, hfind]
    simp [dlStart, ha, hh, hcls, hmen, hhref, e1, e2]
  · intro s ha hm hr hl
    simp [dlEnd, ha, hm, hr, hl]
  · intro suffix s attrs cls hfind hcls hmen
    have hhref : dictGet attrs "href" (some "") = some "" := by
      simp [dictGet, hfind]
    simp [mgStart, hcls, hmen, hhref, e1, e2]
  · intro s hm hr
    simp [mgEnd, hm, hr]

/-- Closed instance discharging the hypotheses of
c4_missing_href_amended at a concrete input: an anchor with a single
non-href attribute processed from the initial states of both engines,
plus both end tags. -/
theorem c4_missing_href_witness :
    (dlInit.aside = false ∧ dlInit.aside_header = false
      ∧ dictFind [("rel", some "nofollow")] "href" = none
      ∧ dictGet [("rel", some "nofollow")] "class" (some "") = some ""
      ∧ strIn "mention" "" = false
      ∧ dlStart "" dlInit "a" [("rel", some "nofollow")]
          = some { dlInit with output_html := "<a rel=\"nofollow\">" })
    ∧ dlEnd dlInit "a" = { dlInit with output_html := "</a>" }
    ∧ mgStart "" mgInit "a" [("rel", some "nofollow")] = some mgInit
    ∧ mgEnd mgInit "a" = mgInit :=
  ⟨⟨rfl, rfl, rfl, rfl, rfl,
      c4_missing_href_amended.1 "" dlInit [("rel", some "nofollow")] "" rfl rfl rfl rfl rfl⟩,
   c4_missing_href_amended.2.1 dlInit rfl rfl rfl rfl,
   c4_missing_href_amended.2.2.1 "" mgInit [("rel", some "nofollow")] "" rfl rfl rfl,
   c4_missing_href_amended.2.2.2 mgInit rfl rfl⟩

/-- Claim C5 counterexample: inside a quote aside's header, an anchor
whose href is relative (the usual shape of the quoted-post permalink)
is handled by the relative-link branch of handle_endtag, which never
sets aside_header_link_written; a second relative anchor in the same
header therefore also contributes its text.  For a header containing
two relative anchors with texts one and two, the output is the leading
newline followed by BOTH texts, not the text of exactly one anchor. -/
theorem c5_counterexample :
    (dlFeed dlInit
        [HtmlEvent.startTag "aside" [("class", some "quote")],
         HtmlEvent.startTag "header" [],
         HtmlEvent.startTag "a" [("href", some "/t/x/1")], HtmlEvent.text "one",
         HtmlEvent.endTag "a",
         HtmlEvent.startTag "a" [("href", some "/t/y/2")], HtmlEvent.text "two",
         HtmlEvent.endTag "a"]).map DlState.output_html = some "\nonetwo"
    ∧ strIn "two" "\nonetwo" = true := by
  exact ⟨rfl, rfl⟩

/-- Claim C5, amended: within a quote aside's header, an anchor with a
relative href contributes its text with both of its tags suppressed,
but leaves aside_header_link_written false, so it does not consume the
one-anchor allowance — a later relative anchor in the same header
contributes its text as well; only once aside_header_link_written is
true (set by an anchor whose end tag reaches the default branch, or at
the close of a preview aside) does a relative anchor in the header
contribute no output at all and leave the state unchanged. -/
theorem c5_header_anchor_amended :
    (∀ (s : DlState) (href t : String), s.aside = true → s.aside_src = none →
        s.aside_header = true → s.aside_header_link = false →
        s.aside_header_link_written = false → s.mention = false → s.relative_link = false →
        strLeads "/" href = true →
        dlFeed s [HtmlEvent.startTag "a" [("href", some href)], HtmlEvent.text t,
            HtmlEvent.endTag "a"]
          = some { s with aside_header_link := true, output_html := s.output_html ++ t })
    ∧ (∀ (s : DlState) (href t : String), s.aside = true → s.aside_src = none →
        s.aside_header = true → s.aside_header_link = false →
        s.aside_header_link_written = true → s.mention = false → s.relative_link = false →
        strLeads "/" href = true →
        dlFeed s [HtmlEvent.startTag "a" [("href", some href)], HtmlEvent.text t,
            HtmlEvent.endTag "a"]
          = some s) := by
  refine ⟨?_, ?_⟩
  · intro s href t ha hsrc hh hl hw hm hr hlead
    have hcls : dictGet [("href", some href)] "class" (some "") = some "" := rfl
    have hhref : dictGet [("href", some href)] "href" (some "") = some href := rfl
    have hmen : strIn "mention" "" = false := rfl
    have e1 : dlStart "" s "a" [("href", some href)]
        = some { s with aside_header_link := true, relative_link := true } := by
      simp [dlStart, ha, hh, hw, hlead, hcls, hhref, hmen]
    have e2 : dlData { s with aside_header_link := true, relative_link := true } t
        = { s with
            aside_header_link := true
            relative_link := true
            output_html := s.output_html ++ t } := by
      simp [dlData, hm, hsrc]
    have e3 : dlEnd { s with
          aside_header_link := true
          relative_link := true
          output_html := s.output_html ++ t } "a"
        = { s with aside_header_link := true, output_html := s.output_html ++ t } := by
      simp [dlEnd, ha, hh, hm, hr]
    simp only [dlFeed, dlStep, e1, e2, e3]
  · intro s href t ha hsrc hh hl hw hm hr hlead
    have hcls : dictGet [("href", some href)] "class" (some "") = some "" := rfl
    have hhref : dictGet [("href", some href)] "href" (some "") = some href := rfl
    have hmen : strIn "mention" "" = false := rfl
    have e1 : dlStart "" s "a" [("href", some href)]
        = some { s with relative_link := true } := by
      simp [dlStart, ha, hh, hw, hlead, hcls, hhref, hmen]
    have e2 : dlData { s with relative_link := true } t
        = { s with relative_link := true } := by
      simp [dlData, hm, hsrc, ha, hl]
    have e3 : dlEnd { s with relative_link := true } "a" = s := by
      have h4 : dlEnd { s with relative_link := true } "a"
          = { s with relative_link := false } := by
        simp [dlEnd, ha, hh, hm]
      rw [h4, ← hr]
    simp only [dlFeed, dlStep, e1, e2, e3]

/-- Closed instance discharging the hypotheses of
c5_header_anchor_amended at a concrete input: a fresh quote-header
state, one relative anchor before the allowance is consumed and one
after. -/
theorem c5_header_anchor_witness :
    ({ dlInit with aside := true, aside_header := true }.aside = true
      ∧ { dlInit with aside := true, aside_header := true }.aside_src = none
      ∧ { dlInit with aside := true, aside_header := true }.aside_header = true
      ∧ strLeads "/" "/t/x/1" = true
      ∧ dlFeed { dlInit with aside := true, aside_header := true }
          [HtmlEvent.startTag "a" [("href", some "/t/x/1")], HtmlEvent.text "one",
           HtmlEvent.endTag "a"]
        = some { dlInit with
            aside := true
            aside_header := true
            aside_header_link := true
            output_html := "one" })
    ∧ dlFeed { dlInit with
          aside := true
          aside_header := true
          aside_header_link_written := true }
        [HtmlEvent.startTag "a" [("href", some "/t/y/2")], HtmlEvent.text "two",
         HtmlEvent.endTag "a"]
      = some { dlInit with
          aside := true
          aside_header := true
          aside_header_link_written := true } :=
  ⟨⟨rfl, rfl, rfl, rfl,
      c5_header_anchor_amended.1 { dlInit with aside := true, aside_header := true }
        "/t/x/1" "one" rfl rfl rfl rfl rfl rfl rfl rfl⟩,
   c5_header_anchor_amended.2
      { dlInit with aside := true, aside_header := true, aside_header_link_written := true }
      "/t/y/2" "two" rfl rfl rfl rfl rfl rfl rfl rfl⟩

/-- Claim C6: code fences in the discourse_download.py engine.  A pre
start tag outside any aside only sets the InPre flag (the tag is
suppressed); a code start tag while InPre is suppressed and emits the
fence-open marker ending in three backticks, the language tag python
and a newline, moving to InCode; text inside passes through verbatim;
an end tag for code while InCode emits the fence-close marker (newline,
three backticks, blank line) and drops back to InPre (the pre flag
stays set); an end tag for pre is suppressed and resets the state to
None; the spec's example produces the fence-open marker, then print(1),
then the fence-close marker, with no residual pre or code tags in the
output. -/
theorem c6_code_fences :
    (∀ (s : DlState) (attrs : List (String × Option String)), s.aside = false →
        dlStart "" s "pre" attrs = some { s with code_block_pre := true })
    ∧ (∀ (s : DlState) (attrs : List (String × Option String)), s.aside = false →
        s.code_block_pre = true →
        dlStart "" s "code" attrs
          = some { s with
              output_html := s.output_html ++ "\n\n```python\n"
              code_block_code := true })
    ∧ (∀ (s : DlState) (d : String), s.mention = false → s.aside_src = none →
        s.aside = false →
        dlData s d = { s with output_html := s.output_html ++ d })
    ∧ (∀ s : DlState, s.aside = false → s.code_block_pre = true →
        dlEnd s "code"
          = { s with output_html := s.output_html ++ "\n```\n\n", code_block_code := false }
        ∧ (dlEnd s "code").code_block_pre = true)
    ∧ (∀ s : DlState, s.aside = false → s.code_block_code = false →
        dlEnd s "pre" = { s with code_block_pre := false }
        ∧ (dlEnd s "pre").code_block_pre = false
        ∧ (dlEnd s "pre").code_block_code = false
        ∧ (dlEnd s "pre").output_html = s.output_html)
    ∧ ((dlFeed dlInit [HtmlEvent.startTag "pre" [], HtmlEvent.startTag "code" [],
          HtmlEvent.text "print(1)", HtmlEvent.endTag "code", HtmlEvent.endTag "pre"]).map
            DlState.output_html
        = some "\n\n```python\nprint(1)\n```\n\n"
       ∧ strIn "<pre" "\n\n```python\nprint(1)\n```\n\n" = false
       ∧ strIn "<code" "\n\n```python\nprint(1)\n```\n\n" = false) := by
  refine ⟨?_, ?_, ?_, ?_, ?_, rfl, rfl, rfl⟩
  · intro s attrs ha
    simp [dlStart, asideHeaderCond, ha]
  · intro s attrs ha hp
    simp [dlStart, asideHeaderCond, ha, hp]
  · intro s d hm hsrc ha
    simp [dlData, hm, hsrc, ha]
  · intro s ha hp
    refine ⟨?_, ?_⟩ <;> simp [dlEnd, ha, hp]
  · intro s ha hc
    refine ⟨?_, ?_, ?_, ?_⟩ <;> simp [dlEnd, ha, hc]

/-- Closed instance discharging the hypotheses of c6_code_fences at
concrete inputs: the pre and code start tags and both end tags along
the spec's example, from the states the example actually reaches. -/
theorem c6_code_fences_witness :
    (dlInit.aside = false ∧ dlStart "" dlInit "pre" []
        = some { dlInit with code_block_pre := true })
    ∧ ({ dlInit with code_block_pre := true }.code_block_pre = true
      ∧ dlStart "" { dlInit with code_block_pre := true } "code" []
        = some { dlInit with
            code_block_pre := true
            code_block_code := true
            output_html := "\n\n```python\n" })
    ∧ dlEnd { dlInit with code_block_pre := true, code_block_code := true } "code"
        = { dlInit with code_block_pre := true, output_html := "\n```\n\n" }
    ∧ dlEnd { dlInit with code_block_pre := true } "pre" = dlInit :=
  ⟨⟨rfl, c6_code_fences.1 dlInit [] rfl⟩,
   ⟨rfl, c6_code_fences.2.1 { dlInit with code_block_pre := true } [] rfl rfl⟩,
   (c6_code_fences.2.2.2.1 { dlInit with code_block_pre := true, code_block_code := true }
      rfl rfl).1,
   (c6_code_fences.2.2.2.2.1 { dlInit with code_block_pre := true } rfl rfl).1⟩

/-- One start-tag event of the discourse_download.py engine, processed
from a state in which neither the mention flag nor the relativeLink
flag is set, never sets both at once: each branch of the handler sets
at most one of them. -/
theorem dlStart_excl (suffix : String) (s : DlState) (tag : String)
    (attrs : List (String × Option String)) (s1 : DlState)
    (hm : s.mention = false) (hr : s.relative_link = false)
    (h : dlStart suffix s tag attrs = some s1) :
    s1.mention = false ∨ s1.relative_link = false := by
  simp only [dlStart] at h
  repeat' split at h
  all_goals first
    | exact Option.noConfusion h
    | (simp only [Option.some.injEq] at h; subst h; simp_all)

/-- One end-tag event of the discourse_download.py engine, processed
from a state in which neither flag is set, leaves both unset (the
handler only ever clears them). -/
theorem dlEnd_excl (s : DlState) (tag : String)
    (hm : s.mention = false) (hr : s.relative_link = false) :
    (dlEnd s tag).mention = false ∨ (dlEnd s tag).relative_link = false := by
  simp only [dlEnd]
  repeat' split
  all_goals simp_all

/-- handle_data of the discourse_download.py engine never touches the
mention flag. -/
theorem dlData_mention (s : DlState) (d : String) :
    (dlData s d).mention = s.mention := by
  simp only [dlData]
  repeat' split
  all_goals rfl

/-- handle_data of the discourse_download.py engine never touches the
relativeLink flag. -/
theorem dlData_relative (s : DlState) (d : String) :
    (dlData s d).relative_link = s.relative_link := by
  simp only [dlData]
  repeat' split
  all_goals rfl

/-- Claim C7 counterexample: the mention flag and the relativeLink flag
CAN be simultaneously true during a pass.  The start-tag handler never
checks the current flags, so the document fragment consisting of a
mention anchor start tag immediately followed by a second, relative
anchor start tag (nested anchors, which the tokenizer delivers as two
start-tag events) leaves both flags set at once. -/
theorem c7_counterexample :
    (dlFeed dlInit [HtmlEvent.startTag "a" [("class", some "mention")],
        HtmlEvent.startTag "a" [("href", some "/x")]]).map
      (fun s => (s.mention, s.relative_link)) = some (true, true) := by
  exact rfl


/-- One start-tag event of the discourse_migration.py engine, processed
from a state in which neither the mention flag nor the relativeLink
flag is set, never sets both at once. -/
theorem mgStart_excl (suffix : String) (s : MgState) (tag : String)
    (attrs : List (String × Option String)) (s1 : MgState)
    (hm : s.mention = false) (hr : s.relative_link = false)
    (h : mgStart suffix s tag attrs = some s1) :
    s1.mention = false ∨ s1.relative_link = false := by
  simp only [mgStart] at h
  repeat' split at h
  all_goals first
    | exact Option.noConfusion h
    | (simp only [Option.some.injEq] at h; subst h; simp_all)

/-- One end-tag event of the discourse_migration.py engine, processed
from a state in which neither flag is set, leaves both unset. -/
theorem mgEnd_excl (s : MgState) (tag : String)
    (hm : s.mention = false) (hr : s.relative_link = false) :
    (mgEnd s tag).mention = false ∨ (mgEnd s tag).relative_link = false := by
  simp only [mgEnd]
  repeat' split
  all_goals simp_all

/-- handle_data of the discourse_migration.py engine never touches the
mention flag. -/
theorem mgData_mention (s : MgState) (d : String) :
    (mgData s d).mention = s.mention := by
  simp only [mgData]
  repeat' split
  all_goals rfl

/-- handle_data of the discourse_migration.py engine never touches the
relativeLink flag. -/
theorem mgData_relative (s : MgState) (d : String) :
    (mgData s d).relative_link = s.relative_link := by
  simp only [mgData]
  repeat' split
  all_goals rfl

/-- handle_endtag of the discourse_download.py engine either preserves
or clears the mention flag, never sets it. -/
theorem dlEnd_mention_cases (s : DlState) (t : String) :
    (dlEnd s t).mention = s.mention ∨ (dlEnd s t).mention = false := by
  simp only [dlEnd]
  repeat' split
  all_goals simp

/-- handle_endtag of the discourse_download.py engine either preserves
or clears the relativeLink flag, never sets it. -/
theorem dlEnd_relative_cases (s : DlState) (t : String) :
    (dlEnd s t).relative_link = s.relative_link ∨ (dlEnd s t).relative_link = false := by
  simp only [dlEnd]
  repeat' split
  all_goals simp

/-- handle_endtag of the discourse_migration.py engine either preserves
or clears the mention flag, never sets it. -/
theorem mgEnd_mention_cases (s : MgState) (t : String) :
    (mgEnd s t).mention = s.mention ∨ (mgEnd s t).mention = false := by
  simp only [mgEnd]
  repeat' split
  all_goals simp

/-- handle_endtag of the discourse_migration.py engine either preserves
or clears the relativeLink flag, never sets it. -/
theorem mgEnd_relative_cases (s : MgState) (t : String) :
    (mgEnd s t).relative_link = s.relative_link ∨ (mgEnd s t).relative_link = false := by
  simp only [mgEnd]
  repeat' split
  all_goals simp

/-- If one start-tag event of the discourse_download.py engine, from a
state with at most one of the two flags set, leaves both flags set,
then the tag was an anchor and one flag was already set before it. -/
theorem dlStart_both (suffix : String) (s : DlState) (tag : String)
    (attrs : List (String × Option String)) (s1 : DlState)
    (hpre : s.mention = false ∨ s.relative_link = false)
    (h : dlStart suffix s tag attrs = some s1)
    (hm : s1.mention = true) (hr : s1.relative_link = true) :
    tag = "a" ∧ (s.mention = true ∨ s.relative_link = true) := by
  simp only [dlStart] at h
  repeat' split at h
  all_goals first
    | exact Option.noConfusion h
    | (simp only [Option.some.injEq] at h; subst h; simp_all)

/-- If one start-tag event of the discourse_migration.py engine, from a
state with at most one of the two flags set, leaves both flags set,
then the tag was an anchor and one flag was already set before it. -/
theorem mgStart_both (suffix : String) (s : MgState) (tag : String)
    (attrs : List (String × Option String)) (s1 : MgState)
    (hpre : s.mention = false ∨ s.relative_link = false)
    (h : mgStart suffix s tag attrs = some s1)
    (hm : s1.mention = true) (hr : s1.relative_link = true) :
    tag = "a" ∧ (s.mention = true ∨ s.relative_link = true) := by
  simp only [mgStart] at h
  repeat' split at h
  all_goals first
    | exact Option.noConfusion h
    | (simp only [Option.some.injEq] at h; subst h; simp_all)

/-- Claim C7, amended: in both engines, no single event sets both
flags — after any one event processed from a state in which neither the
mention flag nor the relativeLink flag is set, at most one of the two
is set; and conversely, in both engines, a step from a state with at
most one flag set can only end with both flags set if the event was an
anchor start tag processed while one of the flags was already set
(nested anchors). -/
theorem c7_flags_amended :
    (∀ (s : DlState) (e : HtmlEvent) (s1 : DlState),
        s.mention = false → s.relative_link = false → dlStep s e = some s1 →
        s1.mention = false ∨ s1.relative_link = false)
    ∧ (∀ (s : MgState) (e : HtmlEvent) (s1 : MgState),
        s.mention = false → s.relative_link = false → mgStep s e = some s1 →
        s1.mention = false ∨ s1.relative_link = false)
    ∧ (∀ (s : DlState) (e : HtmlEvent) (s1 : DlState),
        s.mention = false ∨ s.relative_link = false → dlStep s e = some s1 →
        s1.mention = true → s1.relative_link = true →
        isAnchorStart e = true ∧ (s.mention = true ∨ s.relative_link = true))
    ∧ (∀ (s : MgState) (e : HtmlEvent) (s1 : MgState),
        s.mention = false ∨ s.relative_link = false → mgStep s e = some s1 →
        s1.mention = true → s1.relative_link = true →
        isAnchorStart e = true ∧ (s.mention = true ∨ s.relative_link = true)) := by
  refine ⟨?_, ?_, ?_, ?_⟩
  · intro s e s1 hm hr h
    cases e with
    | startTag t a => exact dlStart_excl "" s t a s1 hm hr h
    | startEndTag t a => exact dlStart_excl " /" s t a s1 hm hr h
    | endTag t =>
      simp only [dlStep, Option.some.injEq] at h
      subst h
      exact dlEnd_excl s t hm hr
    | text d =>
      simp only [dlStep, Option.some.injEq] at h
      subst h
      rw [dlData_mention]
      exact Or.inl hm
    | comment d =>
      simp only [dlStep, Option.some.injEq] at h
      subst h
      exact Or.inl hm
    | decl d =>
      simp only [dlStep, Option.some.injEq] at h
      subst h
      exact Or.inl hm
    | charref n =>
      simp only [dlStep, Option.some.injEq] at h
      subst h
      exact Or.inl hm
    | entityref n =>
      simp only [dlStep, Option.some.injEq] at h
      subst h
      exact Or.inl hm
    | pi d =>
      simp only [dlStep, Option.some.injEq] at h
      subst h
      exact Or.inl hm
  · intro s e s1 hm hr h
    cases e with
    | startTag t a => exact mgStart_excl "" s t a s1 hm hr h
    | startEndTag t a => exact mgStart_excl " /" s t a s1 hm hr h
    | endTag t =>
      simp only [mgStep, Option.some.injEq] at h
      subst h
      exact mgEnd_excl s t hm hr
    | text d =>
      simp only [mgStep, Option.some.injEq] at h
      subst h
      rw [mgData_mention]
      exact Or.inl hm
    | comment d =>
      simp only [mgStep, Option.some.injEq] at h
      subst h
      exact Or.inl hm
    | decl d =>
      simp only [mgStep, Option.some.injEq] at h
      subst h
      exact Or.inl hm
    | charref n =>
      simp only [mgStep, Option.some.injEq] at h
      subst h
      exact Or.inl hm
    | entityref n =>
      simp only [mgStep, Option.some.injEq] at h
      subst h
      exact Or.inl hm
    | pi d =>
      simp only [mgStep, Option.some.injEq] at h
      subst h
      exact Or.inl hm
  · intro s e s1 hpre h hm hr
    cases e with
    | startTag t a =>
      obtain ⟨ht, hflag⟩ := dlStart_both "" s t a s1 hpre h hm hr
      subst ht
      exact ⟨rfl, hflag⟩
    | startEndTag t a =>
      obtain ⟨ht, hflag⟩ := dlStart_both " /" s t a s1 hpre h hm hr
      subst ht
      exact ⟨rfl, hflag⟩
    | endTag t =>
      simp only [dlStep, Option.some.injEq] at h
      subst h
      have hsm : s.mention = true := by
        rcases dlEnd_mention_cases s t with h1 | h1
        · rw [h1] at hm; exact hm
        · rw [h1] at hm; exact Bool.noConfusion hm
      have hsr : s.relative_link = true := by
        rcases dlEnd_relative_cases s t with h1 | h1
        · rw [h1] at hr; exact hr
        · rw [h1] at hr; exact Bool.noConfusion hr
      rcases hpre with hp | hp
      · exact absurd hsm (by simp [hp])
      · exact absurd hsr (by simp [hp])
    | text d =>
      simp only [dlStep, Option.some.injEq] at h
      subst h
      rw [dlData_mention] at hm
      rw [dlData_relative] at hr
      rcases hpre with hp | hp
      · exact absurd hm (by simp [hp])
      · exact absurd hr (by simp [hp])
    | comment d =>
      simp only [dlStep, Option.some.injEq] at h
      subst h
      rcases hpre with hp | hp
      · exact absurd hm (by simp [hp])
      · exact absurd hr (by simp [hp])
    | decl d =>
      simp only [dlStep, Option.some.injEq] at h
      subst h
      rcases hpre with hp | hp
      · exact absurd hm (by simp [hp])
      · exact absurd hr (by simp [hp])
    | charref n =>
      simp only [dlStep, Option.some.injEq] at h
      subst h
      rcases hpre with hp | hp
      · exact absurd hm (by simp [hp])
      · exact absurd hr (by simp [hp])
    | entityref n =>
      simp only [dlStep, Option.some.injEq] at h
      subst h
      rcases hpre with hp | hp
      · exact absurd hm (by simp [hp])
      · exact absurd hr (by simp [hp])
    | pi d =>
      simp only [dlStep, Option.some.injEq] at h
      subst h
      rcases hpre with hp | hp
      · exact absurd hm (by simp [hp])
      · exact absurd hr (by simp [hp])
  · intro s e s1 hpre h hm hr
    cases e with
    | startTag t a =>
      obtain ⟨ht, hflag⟩ := mgStart_both "" s t a s1 hpre h hm hr
      subst ht
      exact ⟨rfl, hflag⟩
    | startEndTag t a =>
      obtain ⟨ht, hflag⟩ := mgStart_both " /" s t a s1 hpre h hm hr
      subst ht
      exact ⟨rfl, hflag⟩
    | endTag t =>
      simp only [mgStep, Option.some.injEq] at h
      subst h
      have hsm : s.mention = true := by
        rcases mgEnd_mention_cases s t with h1 | h1
        · rw [h1] at hm; exact hm
        · rw [h1] at hm; exact Bool.noConfusion hm
      have hsr : s.relative_link = true := by
        rcases mgEnd_relative_cases s t with h1 | h1
        · rw [h1] at hr; exact hr
        · rw [h1] at hr; exact Bool.noConfusion hr
      rcases hpre with hp | hp
      · exact absurd hsm (by simp [hp])
      · exact absurd hsr (by simp [hp])
    | text d =>
      simp only [mgStep, Option.some.injEq] at h
      subst h
      rw [mgData_mention] at hm
      rw [mgData_relative] at hr
      rcases hpre with hp | hp
      · exact absurd hm (by simp [hp])
      · exact absurd hr (by simp [hp])
    | comment d =>
      simp only [mgStep, Option.some.injEq] at h
      subst h
      rcases hpre with hp | hp
      · exact absurd hm (by simp [hp])
      · exact absurd hr (by simp [hp])
    | decl d =>
      simp only [mgStep, Option.some.injEq] at h
      subst h
      rcases hpre with hp | hp
      · exact absurd hm (by simp [hp])
      · exact absurd hr (by simp [hp])
    | charref n =>
      simp only [mgStep, Option.some.injEq] at h
      subst h
      rcases hpre with hp | hp
      · exact absurd hm (by simp [hp])
      · exact absurd hr (by simp [hp])
    | entityref n =>
      simp only [mgStep, Option.some.injEq] at h
      subst h
      rcases hpre with hp | hp
      · exact absurd hm (by simp [hp])
      · exact absurd hr (by simp [hp])
    | pi d =>
      simp only [mgStep, Option.some.injEq] at h
      subst h
      rcases hpre with hp | hp
      · exact absurd hm (by simp [hp])
      · exact absurd hr (by simp [hp])

/-- Closed instances discharging the hypotheses of c7_flags_amended at
concrete inputs: a relative anchor start tag from the flag-clear
initial state of each engine sets only one flag; the same event
processed while the mention flag is already set yields both flags and
is indeed recognized as an anchor start tag with a flag already set. -/
theorem c7_flags_witness :
    (dlInit.mention = false ∧ dlInit.relative_link = false
      ∧ ({ dlInit with relative_link := true }.mention = false
          ∨ { dlInit with relative_link := true }.relative_link = false))
    ∧ (mgInit.mention = false ∧ mgInit.relative_link = false
      ∧ ({ mgInit with relative_link := true }.mention = false
          ∨ { mgInit with relative_link := true }.relative_link = false))
    ∧ (({ dlInit with mention := true }.mention = false
          ∨ { dlInit with mention := true }.relative_link = false)
      ∧ (isAnchorStart (HtmlEvent.startTag "a" [("href", some "/x")]) = true
          ∧ ({ dlInit with mention := true }.mention = true
              ∨ { dlInit with mention := true }.relative_link = true)))
    ∧ (({ mgInit with mention := true }.mention = false
          ∨ { mgInit with mention := true }.relative_link = false)
      ∧ (isAnchorStart (HtmlEvent.startTag "a" [("href", some "/x")]) = true
          ∧ ({ mgInit with mention := true }.mention = true
              ∨ { mgInit with mention := true }.relative_link = true))) :=
  ⟨⟨rfl, rfl,
      c7_flags_amended.1 dlInit (HtmlEvent.startTag "a" [("href", some "/x")])
        { dlInit with relative_link := true } rfl rfl rfl⟩,
   ⟨rfl, rfl,
      c7_flags_amended.2.1 mgInit (HtmlEvent.startTag "a" [("href", some "/x")])
        { mgInit with relative_link := true } rfl rfl rfl⟩,
   ⟨Or.inr rfl,
      c7_flags_amended.2.2.1 { dlInit with mention := true }
        (HtmlEvent.startTag "a" [("href", some "/x")])
        { dlInit with mention := true, relative_link := true } (Or.inr rfl) rfl rfl rfl⟩,
   ⟨Or.inr rfl,
      c7_flags_amended.2.2.2 { mgInit with mention := true }
        (HtmlEvent.startTag "a" [("href", some "/x")])
        { mgInit with mention := true, relative_link := true } (Or.inr rfl) rfl rfl rfl⟩⟩

/-- A list that starts with n still starts with n after appending. -/
theorem listLeads_extend (n : List Char) : ∀ l r : List Char,
    listLeads n l = true → listLeads n (l ++ r) = true := by
  induction n with
  | nil => intro l r _; rfl
  | cons a as ih =>
    intro l r h
    cases l with
    | nil => simp [listLeads] at h
    | cons b bs =>
      simp only [listLeads, Bool.and_eq_true] at h
      simp only [List.cons_append, listLeads, Bool.and_eq_true]
      exact ⟨h.1, ih bs r h.2⟩

/-- A needle that is an initial segment of a list occurs inside it. -/
theorem listHas_of_leads (n l : List Char) (h : listLeads n l = true) :
    listHas n l = true := by
  cases l with
  | nil =>
    cases n with
    | nil => rfl
    | cons a as => simp [listLeads] at h
  | cons c cs => simp [listHas, h]

/-- Every list n occurs inside n followed by anything. -/
theorem listHas_self_append (n r : List Char) : listHas n (n ++ r) = true := by
  apply listHas_of_leads
  apply listLeads_extend
  induction n with
  | nil => rfl
  | cons a as ih => simp [listLeads, ih]

/-- Occurrence inside a list survives one more leading character. -/
theorem listHas_cons (n : List Char) (c : Char) (l : List Char)
    (h : listHas n l = true) : listHas n (c :: l) = true := by
  simp [listHas, h]

/-- Occurrence inside a list survives prepending anything. -/
theorem listHas_append_left (n pre l : List Char) (h : listHas n l = true) :
    listHas n (pre ++ l) = true := by
  induction pre with
  | nil => simpa using h
  | cons c cs ih => simpa using listHas_cons n c (cs ++ l) ih

/-- Occurrence inside a list survives appending anything. -/
theorem listHas_append_right (n : List Char) : ∀ l r : List Char,
    listHas n l = true → listHas n (l ++ r) = true := by
  intro l
  induction l with
  | nil =>
    intro r h
    cases n with
    | nil => simpa using listHas_self_append [] r
    | cons a as => simp [listHas] at h
  | cons c cs ih =>
    intro r h
    simp only [listHas, Bool.or_eq_true] at h
    rcases h with h | h
    · exact listHas_of_leads n ((c :: cs) ++ r) (listLeads_extend n (c :: cs) r h)
    · simpa using listHas_cons n c (cs ++ r) (ih r h)

/-- strIn survives prepending a string. -/
theorem strIn_append_left (sub pre s : String) (h : strIn sub s = true) :
    strIn sub (pre ++ s) = true := by
  simp only [strIn, String.toList, String.data_append]
  simp only [strIn, String.toList] at h
  exact listHas_append_left _ _ _ h

/-- strIn survives appending a string. -/
theorem strIn_append_right (sub s r : String) (h : strIn sub s = true) :
    strIn sub (s ++ r) = true := by
  simp only [strIn, String.toList, String.data_append]
  simp only [strIn, String.toList] at h
  exact listHas_append_right _ _ _ h

/-- Every string occurs inside itself followed by anything. -/
theorem strIn_self_append (s r : String) : strIn s (s ++ r) = true := by
  simp only [strIn, String.toList, String.data_append]
  exact listHas_self_append _ _

/-- The accumulator-passing worker of String.intercalate appends
sepConcat of the remaining elements to the accumulator. -/
theorem intercalate_go_eq (s : String) (as : List String) : ∀ acc : String,
    String.intercalate.go acc s as = acc ++ sepConcat s as := by
  induction as with
  | nil => intro acc; simp [String.intercalate.go, sepConcat]
  | cons a as ih =>
    intro acc
    rw [String.intercalate.go, ih]
    simp [sepConcat, String.append_assoc]

/-- String.intercalate on a nonempty list is the head followed by the
separator-prefixed tail. -/
theorem intercalate_cons (s a : String) (as : List String) :
    String.intercalate s (a :: as) = a ++ sepConcat s as := by
  rw [String.intercalate, intercalate_go_eq]

/-- Every element of l occurs inside sepConcat s l. -/
theorem strIn_sepConcat (s x : String) : ∀ l : List String, x ∈ l →
    strIn x (sepConcat s l) = true := by
  intro l
  induction l with
  | nil => intro hx; cases hx
  | cons a as ih =>
    intro hx
    rcases List.mem_cons.mp hx with rfl | hx'
    · simp only [sepConcat]
      rw [String.append_assoc]
      exact strIn_append_left _ _ _ (strIn_self_append x (sepConcat s as))
    · exact strIn_append_left _ _ _ (ih hx')

/-- Every element of l occurs as a contiguous substring of
String.intercalate s l (Python sep.join). -/
theorem strIn_intercalate (s x : String) (l : List String) (hx : x ∈ l) :
    strIn x (String.intercalate s l) = true := by
  cases l with
  | nil => cases hx
  | cons a as =>
    rw [intercalate_cons]
    rcases List.mem_cons.mp hx with rfl | hx'
    · exact strIn_self_append x (sepConcat s as)
    · exact strIn_append_left _ _ _ (strIn_sepConcat s x as hx')

/-- Claim C10: in the default pass-through branch of either engine
(the tag is not an anchor, aside, or pre, and no suppressing context is
active), the whole start tag is re-emitted through the key="value"
f-string template; every attribute that appears without a value
(html.parser reports its value as None) is formatted with the literal
string None as its value, so the re-emitted tag contains key="None"
for every such attribute; on the concrete input, a div tag carrying a
bare hidden attribute comes out as a div tag with hidden="None" in
both engines. -/
theorem c10_valueless_attr :
    (∀ (suffix : String) (s : DlState) (tag : String)
        (attrs : List (String × Option String)),
        s.aside = false → s.aside_header = false → s.code_block_pre = false →
        (tag == "a") = false → (tag == "aside") = false → (tag == "pre") = false →
        dlStart suffix s tag attrs
          = some { s with output_html := s.output_html ++ writeStarttag attrs tag suffix })
    ∧ (∀ (suffix : String) (s : MgState) (tag : String)
        (attrs : List (String × Option String)),
        s.code_block_pre = false →
        (tag == "a") = false → (tag == "aside") = false → (tag == "pre") = false →
        mgStart suffix s tag attrs
          = some { s with output_html := s.output_html ++ writeStarttag attrs tag suffix })
    ∧ (∀ (attrs : List (String × Option String)) (tag suffix k : String),
        (k, (none : Option String)) ∈ attrs →
        strIn (k ++ "=\"None\"") (writeStarttag attrs tag suffix) = true)
    ∧ ((dlFeed dlInit [HtmlEvent.startTag "div" [("hidden", none)]]).map DlState.output_html
        = some "<div hidden=\"None\">"
       ∧ (mgFeed mgInit [HtmlEvent.startTag "div" [("hidden", none)]]).map MgState.output_html
        = some "<div hidden=\"None\">") := by
  refine ⟨?_, ?_, ?_, rfl, rfl⟩
  · intro suffix s tag attrs ha hh hcp hta htas htp
    simp [dlStart, asideHeaderCond, ha, hh, hcp, hta, htas, htp]
  · intro suffix s tag attrs hcp hta htas htp
    simp [mgStart, mgAsideCond, hcp, hta, htas, htp]
  · intro attrs tag suffix k hk
    have hfrag : (fun kv : String × Option String => kv.1 ++ "=\"" ++ pyStr kv.2 ++ "\"")
        (k, (none : Option String)) = k ++ "=\"None\"" := by
      show k ++ "=\"" ++ "None" ++ "\"" = k ++ "=\"None\""
      rw [String.append_assoc, String.append_assoc]
      congr 1
    have hmem : (k ++ "=\"None\"")
        ∈ attrs.map (fun kv : String × Option String => kv.1 ++ "=\"" ++ pyStr kv.2 ++ "\"") := by
      have hm0 := List.mem_map_of_mem
        (fun kv : String × Option String => kv.1 ++ "=\"" ++ pyStr kv.2 ++ "\"") hk
      rwa [hfrag] at hm0
    have hin : strIn (k ++ "=\"None\"") (String.intercalate " "
        (attrs.map (fun kv : String × Option String => kv.1 ++ "=\"" ++ pyStr kv.2 ++ "\"")))
        = true := strIn_intercalate " " (k ++ "=\"None\"") _ hmem
    simp only [writeStarttag]
    exact strIn_append_right _ _ _ (strIn_append_right _ _ _ (strIn_append_left _ _ _ hin))

/-- Closed instance discharging the hypotheses of c10_valueless_attr at
a concrete input: a div start tag carrying a bare hidden attribute,
routed through the default branch of both engines from their initial
states, and the hidden="None" fragment inside the re-emitted tag. -/
theorem c10_valueless_attr_witness :
    (dlInit.aside = false ∧ dlInit.aside_header = false ∧ dlInit.code_block_pre = false
      ∧ ("div" == "a") = false ∧ ("div" == "aside") = false ∧ ("div" == "pre") = false
      ∧ dlStart "" dlInit "div" [("hidden", none)]
          = some { dlInit with output_html := writeStarttag [("hidden", none)] "div" "" })
    ∧ mgStart "" mgInit "div" [("hidden", none)]
        = some { mgInit with output_html := writeStarttag [("hidden", none)] "div" "" }
    ∧ (("hidden", (none : Option String)) ∈ [("hidden", (none : Option String))]
      ∧ strIn ("hidden" ++ "=\"None\"") (writeStarttag [("hidden", none)] "div" "") = true) :=
  ⟨⟨rfl, rfl, rfl, rfl, rfl, rfl,
      c10_valueless_attr.1 "" dlInit "div" [("hidden", none)] rfl rfl rfl rfl rfl rfl⟩,
   c10_valueless_attr.2.1 "" mgInit "div" [("hidden", none)] rfl rfl rfl rfl,
   ⟨List.mem_cons_self _ _,
      c10_valueless_attr.2.2.1 [("hidden", none)] "div" "" "hidden"
        (List.mem_cons_self _ _)⟩⟩
